import Mathlib

/-!
Shallow embedding, in Lean 4, of the core of the sakurazaka-blog-archive
repository (a JavaScript blog scraping/archiving tool), together with proofs
about it.  The embedding follows the JavaScript source:

* `src/database.js`   — the SQLite persistence layer (class `BlogDatabase`);
* `src/blogScraper.js` — the pagination collector and scraping driver;
* `src/utils` (dateUtils) — date parsing and range checks;
* `src/imageDownloader.js` — retry/redirect/batching logic of the downloader.

SQLite tables are modelled as lists of row structures kept in rowid order
(`AUTOINCREMENT` ids are handed out by a monotone counter, so list order and
`ORDER BY id` order coincide on every state built by the modelled operations).
External effects (the DOM, the network, `new Date`) enter as function
parameters.  JavaScript `x.split(',')` and SQL `GROUP_CONCAT` are modelled by
executable character-level definitions below.
-/

namespace BlogArchive

/-- A row of the `blog_posts` table (src/database.js, `CREATE TABLE blog_posts`).
The DB-assigned `created_at` timestamp is not read by any modelled operation
and is omitted. -/
structure PostRow where
  id : Nat
  member_id : Option Int
  member_name : String
  url : String
  title : String
  date : String
  content : String
  site : String
deriving DecidableEq, Repr

/-- A row of the `blog_images` table (src/database.js, `CREATE TABLE blog_images`).
`local_path` is NULL until a download back-fills it. -/
structure ImageRow where
  id : Nat
  post_id : Nat
  image_url : String
  local_path : Option String
deriving DecidableEq, Repr

/-- The SQLite database state: both tables in rowid order plus the
`AUTOINCREMENT` counters for the two tables. -/
structure DB where
  posts : List PostRow
  images : List ImageRow
  nextPostId : Nat
  nextImageId : Nat
deriving DecidableEq, Repr

/-- A fresh database, as produced by `initDatabase` (SQLite `AUTOINCREMENT`
starts handing out ids at 1). -/
def DB.empty : DB := ⟨[], [], 1, 1⟩

/-- Input to `saveBlogPost` (src/database.js line 136): the scraped post
object `{memberId, memberName, url, title, date, content, site, images}`. -/
structure PostInput where
  memberId : Option Int
  memberName : String
  url : String
  title : String
  date : String
  content : String
  site : Option String
  images : List String
deriving DecidableEq, Repr

/-- Character-level worker for `splitComma`. -/
def splitCommaAux : List Char → List Char → List String
  | [], acc => [String.mk acc.reverse]
  | c :: rest, acc =>
    if c = ',' then String.mk acc.reverse :: splitCommaAux rest []
    else splitCommaAux rest (c :: acc)

/-- JavaScript `s.split(',')` for a non-empty comma-separated field
(src/database.js lines 217, 243, 267, 335). -/
def splitComma (s : String) : List String := splitCommaAux s.data []

/-- The comma-joined string produced by SQL `GROUP_CONCAT` over the listed
(non-NULL) values. -/
def joinComma : List String → String
  | [] => ""
  | [s] => s
  | s :: rest => s ++ "," ++ joinComma rest

/-- SQL `GROUP_CONCAT(col)`: NULL values are skipped; the aggregate is NULL
when no non-NULL value exists. -/
def groupConcat (vals : List (Option String)) : Option String :=
  match vals.filterMap id with
  | [] => none
  | l => some (joinComma l)

/-- JavaScript `row.images ? row.images.split(',') : []` (src/database.js
line 217): note that `''` is falsy and that no filter is applied. -/
def jsSplitImages (v : Option String) : List String :=
  match v with
  | none => []
  | some s => if s = "" then [] else splitComma s

/-- JavaScript `row.local_images ? row.local_images.split(',').filter(p => p) : []`
(src/database.js line 218): falsy (empty) entries are dropped. -/
def jsSplitLocalImages (v : Option String) : List String :=
  match v with
  | none => []
  | some s => if s = "" then [] else (splitComma s).filter (fun p => !(p == ""))

/-- A post as returned by the read queries: the `blog_posts` columns plus the
`images` / `local_images` arrays split out of the `GROUP_CONCAT` aggregates. -/
structure PostOut where
  id : Nat
  member_id : Option Int
  member_name : String
  url : String
  title : String
  date : String
  content : String
  site : String
  images : List String
  local_images : List String
deriving DecidableEq, Repr

/-- One output row of the read queries: `LEFT JOIN blog_images ... GROUP BY bp.id`
followed by the JavaScript split/filter post-processing (src/database.js
lines 195–220 and analogous queries).  The join scans `blog_images` in rowid
order, which is the model's list order. -/
def rowToPost (db : DB) (r : PostRow) : PostOut :=
  let imgRows := db.images.filter (fun im => im.post_id == r.id)
  { id := r.id, member_id := r.member_id, member_name := r.member_name,
    url := r.url, title := r.title, date := r.date, content := r.content,
    site := r.site,
    images := jsSplitImages (groupConcat (imgRows.map (fun im => some im.image_url))),
    local_images := jsSplitLocalImages (groupConcat (imgRows.map (fun im => im.local_path))) }

/-- JavaScript `post.site || 'sakurazaka46'` (src/database.js line 151). -/
def jsSiteDefault (site : Option String) : String :=
  match site with
  | some s => if s = "" then "sakurazaka46" else s
  | none => "sakurazaka46"

/-- `saveBlogPost` (src/database.js lines 136–178):
`INSERT OR REPLACE INTO blog_posts ...` — the REPLACE conflict resolution
deletes any row with the same (UNIQUE) `url`, and the fresh insert receives a
new `AUTOINCREMENT` id; then one `blog_images` row is inserted per entry of
`post.images`, in array order, attached to the new id.  Returns the new id
(`this.lastID`). -/
def savedRow (db : DB) (post : PostInput) : PostRow :=
  { id := db.nextPostId, member_id := post.memberId, member_name := post.memberName,
    url := post.url, title := post.title, date := post.date,
    content := post.content, site := jsSiteDefault post.site }

/-- The image rows inserted by the `post.images.forEach` loop of
`saveBlogPost`: sequential `AUTOINCREMENT` ids starting at `iid`, all attached
to the fresh post id. -/
def savedImagesFrom (pid : Nat) : List String → Nat → List ImageRow
  | [], _ => []
  | u :: rest, iid => ImageRow.mk iid pid u none :: savedImagesFrom pid rest (iid + 1)

def savedImages (db : DB) (post : PostInput) : List ImageRow :=
  savedImagesFrom db.nextPostId post.images db.nextImageId

def saveBlogPost (db : DB) (post : PostInput) : DB × Nat :=
  ({ posts := db.posts.filter (fun r => !(r.url == post.url)) ++ [savedRow db post],
     images := db.images ++ savedImages db post,
     nextPostId := db.nextPostId + 1,
     nextImageId := db.nextImageId + post.images.length }, db.nextPostId)

/-- JavaScript truthiness of the `memberId` argument (`if (memberId)`,
src/database.js line 206): `null` and `0` are falsy. -/
def jsNumTruthy (v : Option Int) : Bool :=
  match v with
  | none => false
  | some n => !(n == 0)

/-- `getBlogPosts` (src/database.js lines 195–220).  The `limit` parameter is
accepted but never used by the query (the source comment says pagination is
done by the web server). -/
def getBlogPosts (db : DB) (memberId : Option Int) (limit : Nat) : List PostOut :=
  let _ := limit
  let rows := if jsNumTruthy memberId
    then db.posts.filter (fun r => r.member_id == memberId)
    else db.posts
  rows.map (rowToPost db)

/-- SQL `col LIKE '%keyword%'`: case-insensitive substring containment. -/
def likeContains (s pat : String) : Bool :=
  pat == "" || decide ((s.toLower.splitOn pat.toLower).length ≥ 2)

/-- `searchBlogPosts` (src/database.js lines 227–246): posts whose title or
content contains the keyword, with the same image aggregation. -/
def searchBlogPosts (db : DB) (keyword : String) : List PostOut :=
  (db.posts.filter (fun r => likeContains r.title keyword || likeContains r.content keyword)).map
    (rowToPost db)

/-- Insertion step for `ORDER BY bp.date DESC` (descending string order on the
`date` column). -/
def insertDateDesc (r : PostRow) : List PostRow → List PostRow
  | [] => [r]
  | x :: xs => if x.date < r.date then r :: x :: xs else x :: insertDateDesc r xs

/-- Sort of the posts table by `date` descending. -/
def sortDateDesc : List PostRow → List PostRow
  | [] => []
  | x :: xs => insertDateDesc x (sortDateDesc xs)

/-- `getAllBlogPosts` (src/database.js lines 252–270): every post, date
descending, with the image aggregation. -/
def getAllBlogPosts (db : DB) : List PostOut :=
  (sortDateDesc db.posts).map (rowToPost db)

/-- `getBlogPost` (src/database.js lines 319–341): single post by id (`dbGet`
returns the first matching row), or `null` when absent. -/
def getBlogPost (db : DB) (postId : Nat) : Option PostOut :=
  match (db.posts.filter (fun r => r.id == postId)).head? with
  | none => none
  | some r => some (rowToPost db r)

/-- JavaScript `localImagePaths[index] || null` (src/database.js line 304):
out-of-range access gives `undefined`, and both `undefined`, `null` and the
empty string collapse to `null`. -/
def jsPathTruthy (paths : List (Option String)) (i : Nat) : Option String :=
  match paths.get? i with
  | some (some p) => if p = "" then none else some p
  | _ => none

/-- The per-row updates of `updateBlogPostImages`: the i-th image row of the
post (in id order — list order in this model) receives `localImagePaths[i] || null`;
rows of other posts are untouched.  `k` counts the matching rows already
seen. -/
def updateImagesList (postId : Nat) (paths : List (Option String)) :
    List ImageRow → Nat → List ImageRow
  | [], _ => []
  | im :: rest, k =>
    if im.post_id == postId then
      { im with local_path := jsPathTruthy paths k } :: updateImagesList postId paths rest (k + 1)
    else
      im :: updateImagesList postId paths rest k

/-- `updateBlogPostImages` (src/database.js lines 286–312): look up the post by
URL (`dbGet` gives the first match), throw `'Post not found'` if absent, else
assign `localImagePaths[i] || null` to the post's i-th image row in id order. -/
def updateBlogPostImages (db : DB) (postUrl : String)
    (localImagePaths : List (Option String)) : Except String DB :=
  match db.posts.find? (fun r => r.url == postUrl) with
  | none => .error "Post not found"
  | some r => .ok { db with images := updateImagesList r.id localImagePaths db.images 0 }

/-- `deleteBlogPost` (src/database.js lines 348–422): delete the post's image
rows, then the post row, returning the post-table change count.  The
best-effort unlinking of local files touches only the filesystem, not the
database state. -/
def deleteBlogPost (db : DB) (postId : Nat) : DB × Nat :=
  let remaining := db.posts.filter (fun r => !(r.id == postId))
  ({ db with posts := remaining,
             images := db.images.filter (fun im => !(im.post_id == postId)) },
   db.posts.length - remaining.length)

/-! ### Well-formedness of database states

Ids already stored are below the `AUTOINCREMENT` counters; every state
reachable from `DB.empty` through the modelled operations satisfies this. -/

/-- Stored post ids and image `post_id` references are below the post-id
counter, so a freshly inserted post id collides with nothing. -/
def DB.WF (db : DB) : Prop :=
  (∀ r ∈ db.posts, r.id < db.nextPostId) ∧
    (∀ im ∈ db.images, im.post_id < db.nextPostId)

/-! ### Round trip between `GROUP_CONCAT` and `split(',')` -/

theorem mkData (s : String) : String.mk s.data = s := rfl

theorem splitCommaAux_no_comma (cs : List Char) (h : ',' ∉ cs) :
    ∀ acc, splitCommaAux cs acc = [String.mk (acc.reverse ++ cs)] := by
  induction cs with
  | nil => intro acc; simp [splitCommaAux]
  | cons c t ih =>
    intro acc
    have hc : ¬ c = ',' := fun hc => h (hc ▸ List.mem_cons_self c t)
    have ht : ',' ∉ t := fun hm => h (List.mem_cons_of_mem c hm)
    simp only [splitCommaAux, if_neg hc]
    rw [ih ht (c :: acc)]
    simp

theorem splitCommaAux_comma_split (cs : List Char) (h : ',' ∉ cs)
    (rest : List Char) :
    ∀ acc, splitCommaAux (cs ++ ',' :: rest) acc =
      String.mk (acc.reverse ++ cs) :: splitCommaAux rest [] := by
  induction cs with
  | nil => intro acc; simp [splitCommaAux]
  | cons c t ih =>
    intro acc
    have hc : ¬ c = ',' := fun hc => h (hc ▸ List.mem_cons_self c t)
    have ht : ',' ∉ t := fun hm => h (List.mem_cons_of_mem c hm)
    simp only [List.cons_append, splitCommaAux, if_neg hc]
    rw [List.append_eq, ih ht (c :: acc)]
    simp

/-- Splitting the comma-join of a non-empty list of comma-free strings gives
back the list (the JS `split(',')` of a `GROUP_CONCAT` aggregate). -/
theorem splitComma_joinComma (l : List String) (hne : l ≠ [])
    (hnc : ∀ s ∈ l, ',' ∉ s.data) : splitComma (joinComma l) = l := by
  induction l with
  | nil => exact absurd rfl hne
  | cons x xs ih =>
    cases xs with
    | nil =>
      show splitCommaAux x.data [] = [x]
      rw [splitCommaAux_no_comma x.data (hnc x (List.mem_cons_self x [])) []]
      simp [mkData]
    | cons y t =>
      have hj : joinComma (x :: y :: t) = x ++ "," ++ joinComma (y :: t) := rfl
      have hd : (x ++ "," ++ joinComma (y :: t)).data =
          x.data ++ ',' :: (joinComma (y :: t)).data := by
        simp [String.data_append]
      show splitCommaAux (joinComma (x :: y :: t)).data [] = x :: y :: t
      rw [hj, hd,
        splitCommaAux_comma_split x.data (hnc x (List.mem_cons_self x _)) _ []]
      have ihr : splitCommaAux (joinComma (y :: t)).data [] = y :: t :=
        ih (by simp) (fun s hs => hnc s (List.mem_cons_of_mem x hs))
      rw [ihr]
      simp [mkData]

/-- The comma-join of a list with at least two entries is not the empty
string (it contains the separator). -/
theorem joinComma_two_ne_empty (x y : String) (t : List String) :
    joinComma (x :: y :: t) ≠ "" := by
  intro h
  have hd : (joinComma (x :: y :: t)).data = x.data ++ ',' :: (joinComma (y :: t)).data := by
    show (x ++ "," ++ joinComma (y :: t)).data = _
    simp [String.data_append]
  rw [h] at hd
  have : (String.data "") = [] := rfl
  rw [this] at hd
  exact absurd hd.symm (by simp)

/-! ### Behaviour of the ordinal local-path assignment -/

/-- The shape of the post's own image rows after `updateBlogPostImages`: the
row at (filtered) position `i`, counting from `k`, receives
`localImagePaths[k+i] || null`. -/
def applyPathsFrom (paths : List (Option String)) :
    List ImageRow → Nat → List ImageRow
  | [], _ => []
  | im :: rest, k =>
    { im with local_path := jsPathTruthy paths k } :: applyPathsFrom paths rest (k + 1)

theorem jsPathTruthy_of_ge (paths : List (Option String)) (i : Nat)
    (h : paths.length ≤ i) : jsPathTruthy paths i = none := by
  unfold jsPathTruthy
  rw [List.get?_eq_none.mpr h]

theorem updateImagesList_filter (pid : Nat) (paths : List (Option String)) :
    ∀ (l : List ImageRow) (k : Nat),
      (updateImagesList pid paths l k).filter (fun w => w.post_id == pid) =
        applyPathsFrom paths (l.filter (fun w => w.post_id == pid)) k := by
  intro l
  induction l with
  | nil => intro k; rfl
  | cons im rest ih =>
    intro k
    by_cases him : im.post_id = pid
    · simp [updateImagesList, him, List.filter_cons, applyPathsFrom, ih]
    · have : (im.post_id == pid) = false := by simp [him]
      simp [updateImagesList, this, List.filter_cons, ih]

theorem updateImagesList_append_skip (pid : Nat) (paths : List (Option String))
    (l m : List ImageRow) (h : ∀ im ∈ l, (im.post_id == pid) = false) :
    ∀ k, updateImagesList pid paths (l ++ m) k = l ++ updateImagesList pid paths m k := by
  induction l with
  | nil => intro k; rfl
  | cons im rest ih =>
    intro k
    have h1 := h im (List.mem_cons_self im rest)
    simp only [List.cons_append, updateImagesList, h1, Bool.false_eq_true, if_false]
    rw [List.append_eq, ih (fun w hw => h w (List.mem_cons_of_mem im hw)) k]

theorem applyPathsFrom_drop (paths : List (Option String)) :
    ∀ (l : List ImageRow) (n k : Nat),
      (applyPathsFrom paths l k).drop n = applyPathsFrom paths (l.drop n) (k + n) := by
  intro l
  induction l with
  | nil => intro n k; simp [applyPathsFrom]
  | cons im rest ih =>
    intro n k
    cases n with
    | zero => simp [applyPathsFrom]
    | succ n =>
      show (applyPathsFrom paths rest (k + 1)).drop n = _
      rw [ih n (k + 1)]
      congr 1
      omega

theorem applyPathsFrom_all_none (paths : List (Option String)) :
    ∀ (l : List ImageRow) (k : Nat), paths.length ≤ k →
      (applyPathsFrom paths l k).all (fun w => w.local_path == none) = true := by
  intro l
  induction l with
  | nil => intro k _; rfl
  | cons im rest ih =>
    intro k hk
    simp only [applyPathsFrom, List.all_cons, Bool.and_eq_true]
    exact ⟨by simp [jsPathTruthy_of_ge paths k hk], ih (k + 1) (Nat.le_succ_of_le hk)⟩

/-! ### Referential integrity between `blog_images` and `blog_posts` -/

/-- Every image row inserted alongside a post references the fresh post id. -/
theorem savedImagesFrom_post_id (pid : Nat) :
    ∀ (l : List String) (iid : Nat), ∀ im ∈ savedImagesFrom pid l iid,
      im.post_id = pid := by
  intro l
  induction l with
  | nil => intro iid im him; simp [savedImagesFrom] at him
  | cons u rest ih =>
    intro iid im him
    rcases List.mem_cons.mp him with rfl | hmem
    · rfl
    · exact ih (iid + 1) im hmem

/-- Every image row points at an existing post row. -/
def RefIntact (db : DB) : Prop :=
  ∀ im ∈ db.images, ∃ r ∈ db.posts, r.id = im.post_id

/-- Every entry of the `local_images` array of a returned post is non-empty. -/
def localImagesClean (r : PostOut) : Bool :=
  r.local_images.all (fun s => !(s == ""))

theorem jsSplitLocalImages_clean (v : Option String) :
    (jsSplitLocalImages v).all (fun s => !(s == "")) = true := by
  cases v with
  | none => rfl
  | some s =>
    simp only [jsSplitLocalImages]
    split
    · rfl
    · rw [List.all_eq_true]
      intro x hx
      exact (List.mem_filter.mp hx).2

theorem rowToPost_clean (db : DB) (r : PostRow) :
    localImagesClean (rowToPost db r) = true :=
  jsSplitLocalImages_clean _

/-! ### Sample database states used in concrete counterexamples -/

/-- First save of the url `"u"`. -/
def exPost1 : PostInput := ⟨some 5, "m", "u", "t1", "d1", "c1", none, ["a"]⟩

/-- Second save of the same url `"u"` with different title/content/images. -/
def exPost2 : PostInput := ⟨some 5, "m", "u", "t2", "d2", "c2", none, ["b"]⟩

/-- The state after saving the url `"u"` twice. -/
def exDB2 : DB := (saveBlogPost (saveBlogPost DB.empty exPost1).1 exPost2).1

/-- A post whose second image reference is the empty string. -/
def exPostEmptyImg : PostInput := ⟨some 5, "m", "u2", "t", "d", "c", none, ["a", ""]⟩

/-- The state after saving `exPostEmptyImg` into an empty database. -/
def exDBEmptyImg : DB := (saveBlogPost DB.empty exPostEmptyImg).1

/-! ### Claim C1 — idempotent upsert -/

/-- After `saveBlogPost`, the only `blog_posts` row carrying the saved url is
the freshly inserted one. -/
theorem save_filter_url (db : DB) (q : PostInput) :
    (saveBlogPost db q).1.posts.filter (fun r => r.url == q.url) =
      [savedRow db q] := by
  show ((db.posts.filter fun r => !(r.url == q.url)) ++ [savedRow db q]).filter
      (fun r => r.url == q.url) = _
  rw [List.filter_append, List.filter_filter]
  have h1 : db.posts.filter (fun a => a.url == q.url && !(a.url == q.url)) = [] :=
    List.filter_eq_nil_iff.mpr (fun a _ => by simp)
  rw [h1]
  simp [savedRow]

/-- C1: saving two posts with the same url (the second with different
title/content) leaves exactly one `blog_posts` row with that url, carrying the
title and content of the second call. -/
theorem upsert_single_row_latest_content (db : DB) (q1 q2 : PostInput)
    (_h : q1.url = q2.url) :
    ((saveBlogPost (saveBlogPost db q1).1 q2).1.posts.filter
        (fun r => r.url == q2.url)).map (fun r => (r.title, r.content)) =
      [(q2.title, q2.content)] := by
  rw [save_filter_url]
  simp [savedRow]

/-- Witness for C1 at a concrete input. -/
theorem upsert_single_row_latest_content_witness :
    (exDB2.posts.filter (fun r => r.url == exPost2.url)).map
        (fun r => (r.title, r.content)) = [("t2", "c2")] :=
  upsert_single_row_latest_content DB.empty exPost1 exPost2 rfl

/-! ### Claim C2 — image rows always reference an existing post (refuted) -/

/-- C2 counterexample: after saving the same url twice (each save carrying an
image), the image row inserted by the first save still references the first
post id, which the `INSERT OR REPLACE` of the second save has deleted.  The
claimed referential invariant fails on this concrete state. -/
theorem image_rows_reference_existing_post_cex :
    ¬ (∀ im ∈ exDB2.images, ∃ r ∈ exDB2.posts, r.id = im.post_id) := by
  decide

/-- C2 amended: referential integrity is preserved by `saveBlogPost` of a url
that is not yet stored and by `deleteBlogPost`; re-saving an existing url is
exactly the operation that breaks it. -/
theorem image_rows_reference_existing_post_amended (db : DB) (p : PostInput)
    (pid : Nat) (hint : RefIntact db) (hfresh : ∀ r ∈ db.posts, r.url ≠ p.url) :
    RefIntact (saveBlogPost db p).1 ∧ RefIntact (deleteBlogPost db pid).1 := by
  constructor
  · intro im him
    simp only [saveBlogPost] at him ⊢
    have hkeep : db.posts.filter (fun r => !(r.url == p.url)) = db.posts := by
      apply List.filter_eq_self.mpr
      intro a ha
      simpa using hfresh a ha
    rw [hkeep]
    rcases List.mem_append.mp him with hold | hnew
    · obtain ⟨r, hr, hrid⟩ := hint im hold
      exact ⟨r, List.mem_append_left _ hr, hrid⟩
    · have hpid : im.post_id = db.nextPostId :=
        savedImagesFrom_post_id db.nextPostId p.images db.nextImageId im hnew
      exact ⟨savedRow db p, List.mem_append_right _ (List.mem_singleton_self _),
        hpid.symm⟩
  · intro im him
    simp only [deleteBlogPost] at him ⊢
    have him2 := List.mem_filter.mp him
    obtain ⟨r, hr, hrid⟩ := hint im him2.1
    refine ⟨r, List.mem_filter.mpr ⟨hr, ?_⟩, hrid⟩
    simpa [hrid] using him2.2

/-- Witness for the amended C2 at a concrete input. -/
theorem image_rows_reference_existing_post_amended_witness :
    RefIntact (saveBlogPost DB.empty exPost1).1 ∧
      RefIntact (deleteBlogPost DB.empty 1).1 :=
  image_rows_reference_existing_post_amended DB.empty exPost1 1
    (by intro im him; simp [DB.empty] at him)
    (by intro r hr; simp [DB.empty] at hr)

/-! ### Claim C4 — query results contain no empty/null image entries (refuted
for the `images` array, proved for `local_images`) -/

/-- C4 counterexample: a stored post whose image list contains the empty
string is returned by `getBlogPosts` with `""` inside its `images` array —
the split of the `GROUP_CONCAT` aggregate is not filtered for `images`. -/
theorem query_image_arrays_nonempty_cex :
    ¬ (∀ r ∈ getBlogPosts exDBEmptyImg none 10, ∀ s ∈ r.images, s ≠ "") := by
  decide

/-- C4 amended: for every database state, every element of the `local_images`
arrays returned by `getBlogPosts`, `searchBlogPosts`, `getAllBlogPosts` and
`getBlogPost` is a non-empty string (only `local_images` is filtered; the
`images` array can carry empty entries, as the counterexample shows). -/
theorem query_local_images_nonempty (db : DB) (memberId : Option Int)
    (limit : Nat) (kw : String) (pid : Nat) :
    (getBlogPosts db memberId limit).all localImagesClean = true ∧
      (searchBlogPosts db kw).all localImagesClean = true ∧
      (getAllBlogPosts db).all localImagesClean = true ∧
      (getBlogPost db pid).all localImagesClean = true := by
  refine ⟨?_, ?_, ?_, ?_⟩
  · rw [List.all_eq_true]
    intro x hx
    obtain ⟨r, _, rfl⟩ := List.mem_map.mp hx
    exact rowToPost_clean db r
  · rw [List.all_eq_true]
    intro x hx
    obtain ⟨r, _, rfl⟩ := List.mem_map.mp hx
    exact rowToPost_clean db r
  · rw [List.all_eq_true]
    intro x hx
    obtain ⟨r, _, rfl⟩ := List.mem_map.mp hx
    exact rowToPost_clean db r
  · unfold getBlogPost
    cases (db.posts.filter (fun r => r.id == pid)).head? with
    | none => rfl
    | some r => exact rowToPost_clean db r

/-! ### Claim C3 — ordinal assignment of local paths and round trip
(refuted as universally stated; proved for wire-format-representable
inputs) -/

/-- A fresh post with image urls `[a, b, c]`, then updated with the path
list `[p1, "", p3]` (`""` is JS-falsy, so `paths[1] || null` stores NULL). -/
def c3EmptyPathPost : PostInput := ⟨some 5, "m", "uc", "t", "d", "c", none, ["a", "b", "c"]⟩

/-- The state after `updateBlogPostImages "uc" [p1, "", p3]` on the fresh
post above (the update succeeds; the fallback arm is never taken). -/
def c3EmptyPathDB : DB :=
  match updateBlogPostImages (saveBlogPost DB.empty c3EmptyPathPost).1 "uc"
      [some "p1", some "", some "p3"] with
  | .ok d => d
  | .error _ => DB.empty

/-- A fresh post one of whose image urls contains a comma. -/
def c3CommaPost : PostInput := ⟨some 5, "m", "ud", "t", "d", "c", none, ["a", "b,x", "c"]⟩

/-- The state after `updateBlogPostImages "ud" [p1, p2, p3]` on the
comma-url post above. -/
def c3CommaDB : DB :=
  match updateBlogPostImages (saveBlogPost DB.empty c3CommaPost).1 "ud"
      [some "p1", some "p2", some "p3"] with
  | .ok d => d
  | .error _ => DB.empty

/-- C3 counterexample: the claimed round trip fails on concrete inputs the
claim quantifies over.  (i) With paths `[p1, "", p3]`, the empty path is
stored as NULL (`localImagePaths[i] || null`), the read-back filter drops
it, and the pairs misalign: `local_images` comes back `[p1, p3]`, pairing
`b` with `p3` instead of `""`.  (ii) With image urls `[a, "b,x", c]`, the
`GROUP_CONCAT`/`split(',')` aggregate splits the second url in two and the
`images` array comes back `[a, b, x, c]`, not `[a, "b,x", c]`. -/
theorem update_round_trip_cex :
    (updateBlogPostImages (saveBlogPost DB.empty c3EmptyPathPost).1 "uc"
        [some "p1", some "", some "p3"] = Except.ok c3EmptyPathDB ∧
      (getBlogPost c3EmptyPathDB (saveBlogPost DB.empty c3EmptyPathPost).2).map
          (fun r => (r.images, r.local_images)) =
        some (["a", "b", "c"], ["p1", "p3"]) ∧
      ¬ (getBlogPost c3EmptyPathDB (saveBlogPost DB.empty c3EmptyPathPost).2).map
          (fun r => r.local_images) = some ["p1", "", "p3"]) ∧
    (updateBlogPostImages (saveBlogPost DB.empty c3CommaPost).1 "ud"
        [some "p1", some "p2", some "p3"] = Except.ok c3CommaDB ∧
      (getBlogPost c3CommaDB (saveBlogPost DB.empty c3CommaPost).2).map
          (fun r => (r.images, r.local_images)) =
        some (["a", "b", "x", "c"], ["p1", "p2", "p3"]) ∧
      ¬ (getBlogPost c3CommaDB (saveBlogPost DB.empty c3CommaPost).2).map
          (fun r => r.images) = some ["a", "b,x", "c"]) := by
  exact ⟨⟨rfl, by decide, by decide⟩, ⟨rfl, by decide, by decide⟩⟩

/-- C3 amended: for a freshly inserted post with image urls `[A, B, C]`,
when the urls and paths are comma-free and the paths non-empty — exactly the
inputs the `GROUP_CONCAT`/`split(',')` wire format and the JS
`paths[i] || null` store can represent, the ones the counterexample shows
are lost otherwise — `updateBlogPostImages` with `[pA, pB, pC]` assigns the
paths in insertion (row-id) order and reading the post back yields
`A→pA, B→pB, C→pC`; moreover, in general, when the supplied path list is
shorter than the post's image row count every remaining row's `local_path`
is set to NULL. -/
theorem update_assigns_paths_in_order (db : DB) (p : PostInput) (hWF : db.WF)
    (A B C pA pB pC : String) (himg : p.images = [A, B, C])
    (hA : ',' ∉ A.data) (hB : ',' ∉ B.data) (hC : ',' ∉ C.data)
    (hpA : ',' ∉ pA.data) (hpB : ',' ∉ pB.data) (hpC : ',' ∉ pC.data)
    (hneA : pA ≠ "") (hneB : pB ≠ "") (hneC : pC ≠ "") :
    (∃ db2, updateBlogPostImages (saveBlogPost db p).1 p.url
        [some pA, some pB, some pC] = Except.ok db2 ∧
      ∃ ro, getBlogPost db2 (saveBlogPost db p).2 = some ro ∧
        ro.images = [A, B, C] ∧ ro.local_images = [pA, pB, pC]) ∧
    (∀ (dbx : DB) (u : String) (paths : List (Option String)) (r : PostRow)
        (dbx2 : DB), dbx.posts.find? (fun q => q.url == u) = some r →
      updateBlogPostImages dbx u paths = Except.ok dbx2 →
      ((dbx2.images.filter (fun w => w.post_id == r.id)).drop paths.length).all
        (fun w => w.local_path == none) = true) := by
  have hfind : (saveBlogPost db p).1.posts.find? (fun q => q.url == p.url) =
      some (savedRow db p) := by
    show ((db.posts.filter fun r => !(r.url == p.url)) ++ [savedRow db p]).find?
        (fun q => q.url == p.url) = _
    rw [List.find?_append]
    have h1 : (db.posts.filter fun r => !(r.url == p.url)).find?
        (fun q => q.url == p.url) = none := by
      apply List.find?_eq_none.mpr
      intro x hx
      have h2 := (List.mem_filter.mp hx).2
      simp at h2 ⊢
      exact h2
    rw [h1]
    simp [List.find?, savedRow]
  have hskip : ∀ im ∈ db.images, (im.post_id == db.nextPostId) = false := by
    intro im him
    have := hWF.2 im him
    simp
    omega
  constructor
  · refine ⟨{ (saveBlogPost db p).1 with
        images := updateImagesList (savedRow db p).id [some pA, some pB, some pC]
          (saveBlogPost db p).1.images 0 }, ?_, ?_⟩
    · unfold updateBlogPostImages
      rw [hfind]
    · have himages : updateImagesList (savedRow db p).id
          [some pA, some pB, some pC] (saveBlogPost db p).1.images 0 =
          db.images ++
            [⟨db.nextImageId, db.nextPostId, A, some pA⟩,
             ⟨db.nextImageId + 1, db.nextPostId, B, some pB⟩,
             ⟨db.nextImageId + 2, db.nextPostId, C, some pC⟩] := by
        show updateImagesList db.nextPostId _ (db.images ++ savedImages db p) 0 = _
        rw [updateImagesList_append_skip _ _ _ _ hskip 0]
        congr 1
        show updateImagesList db.nextPostId _
          (savedImagesFrom db.nextPostId p.images db.nextImageId) 0 = _
        rw [himg]
        simp [savedImagesFrom, updateImagesList, jsPathTruthy, hneA, hneB, hneC]
      have hfilterPosts : ((saveBlogPost db p).1.posts.filter
          (fun r => r.id == db.nextPostId)) = [savedRow db p] := by
        show ((db.posts.filter fun r => !(r.url == p.url)) ++ [savedRow db p]).filter
            (fun r => r.id == db.nextPostId) = _
        rw [List.filter_append]
        have hleft : (db.posts.filter fun r => !(r.url == p.url)).filter
            (fun r => r.id == db.nextPostId) = [] := by
          apply List.filter_eq_nil_iff.mpr
          intro a ha
          have := hWF.1 a (List.mem_of_mem_filter ha)
          simp
          omega
        rw [hleft]
        simp [savedRow]
      refine ⟨rowToPost { (saveBlogPost db p).1 with
          images := updateImagesList (savedRow db p).id [some pA, some pB, some pC]
            (saveBlogPost db p).1.images 0 } (savedRow db p), ?_, ?_, ?_⟩
      · show getBlogPost _ db.nextPostId = _
        unfold getBlogPost
        show (match ((saveBlogPost db p).1.posts.filter
            (fun r => r.id == db.nextPostId)).head? with
          | none => none
          | some r => some (rowToPost _ r)) = _
        rw [hfilterPosts]
        rfl
      · show (rowToPost _ (savedRow db p)).images = [A, B, C]
        unfold rowToPost
        show jsSplitImages (groupConcat (((updateImagesList (savedRow db p).id
            [some pA, some pB, some pC] (saveBlogPost db p).1.images 0).filter
            (fun im => im.post_id == (savedRow db p).id)).map
            (fun im => some im.image_url))) = [A, B, C]
        rw [himages]
        rw [List.filter_append]
        have hleft : db.images.filter
            (fun im => im.post_id == (savedRow db p).id) = [] :=
          List.filter_eq_nil_iff.mpr (fun a ha => by
            have := hskip a ha
            simp at this ⊢
            exact this)
        rw [hleft]
        have hkeep : ([⟨db.nextImageId, db.nextPostId, A, some pA⟩,
             ⟨db.nextImageId + 1, db.nextPostId, B, some pB⟩,
             ⟨db.nextImageId + 2, db.nextPostId, C, some pC⟩] :
              List ImageRow).filter (fun im => im.post_id == (savedRow db p).id) =
            [⟨db.nextImageId, db.nextPostId, A, some pA⟩,
             ⟨db.nextImageId + 1, db.nextPostId, B, some pB⟩,
             ⟨db.nextImageId + 2, db.nextPostId, C, some pC⟩] := by
          simp [savedRow]
        rw [hkeep]
        show jsSplitImages (groupConcat [some A, some B, some C]) = [A, B, C]
        show (if joinComma [A, B, C] = "" then []
          else splitComma (joinComma [A, B, C])) = [A, B, C]
        rw [if_neg (joinComma_two_ne_empty A B [C])]
        apply splitComma_joinComma
        · simp
        · intro s hs
          simp at hs
          rcases hs with rfl | rfl | rfl <;> assumption
      · show (rowToPost _ (savedRow db p)).local_images = [pA, pB, pC]
        unfold rowToPost
        show jsSplitLocalImages (groupConcat (((updateImagesList (savedRow db p).id
            [some pA, some pB, some pC] (saveBlogPost db p).1.images 0).filter
            (fun im => im.post_id == (savedRow db p).id)).map
            (fun im => im.local_path))) = [pA, pB, pC]
        rw [himages, List.filter_append]
        have hleft : db.images.filter
            (fun im => im.post_id == (savedRow db p).id) = [] :=
          List.filter_eq_nil_iff.mpr (fun a ha => by
            have := hskip a ha
            simp at this ⊢
            exact this)
        rw [hleft]
        have hkeep : ([⟨db.nextImageId, db.nextPostId, A, some pA⟩,
             ⟨db.nextImageId + 1, db.nextPostId, B, some pB⟩,
             ⟨db.nextImageId + 2, db.nextPostId, C, some pC⟩] :
              List ImageRow).filter (fun im => im.post_id == (savedRow db p).id) =
            [⟨db.nextImageId, db.nextPostId, A, some pA⟩,
             ⟨db.nextImageId + 1, db.nextPostId, B, some pB⟩,
             ⟨db.nextImageId + 2, db.nextPostId, C, some pC⟩] := by
          simp [savedRow]
        rw [hkeep]
        show jsSplitLocalImages (groupConcat [some pA, some pB, some pC]) =
          [pA, pB, pC]
        show (if joinComma [pA, pB, pC] = "" then []
          else (splitComma (joinComma [pA, pB, pC])).filter (fun q => !(q == ""))) =
          [pA, pB, pC]
        rw [if_neg (joinComma_two_ne_empty pA pB [pC])]
        rw [splitComma_joinComma [pA, pB, pC] (by simp) (by
          intro s hs
          simp at hs
          rcases hs with rfl | rfl | rfl <;> assumption)]
        simp [hneA, hneB, hneC]
  · intro dbx u paths r dbx2 hfindx hupd
    unfold updateBlogPostImages at hupd
    rw [hfindx] at hupd
    have hdb2 := Except.ok.inj hupd
    subst hdb2
    rw [updateImagesList_filter, applyPathsFrom_drop]
    exact applyPathsFrom_all_none paths _ _ (by omega)

/-- Witness for C3 at a concrete input. -/
theorem update_assigns_paths_in_order_witness :
    ∃ db2, updateBlogPostImages (saveBlogPost DB.empty
        (⟨some 5, "m", "u3", "t", "d", "c", none, ["A", "B", "C"]⟩ : PostInput)).1
        "u3" [some "pA", some "pB", some "pC"] = Except.ok db2 ∧
      ∃ ro, getBlogPost db2 (saveBlogPost DB.empty
          (⟨some 5, "m", "u3", "t", "d", "c", none, ["A", "B", "C"]⟩ : PostInput)).2 =
          some ro ∧
        ro.images = ["A", "B", "C"] ∧ ro.local_images = ["pA", "pB", "pC"] :=
  (update_assigns_paths_in_order DB.empty
    (⟨some 5, "m", "u3", "t", "d", "c", none, ["A", "B", "C"]⟩ : PostInput)
    (by constructor <;> (intro x hx; simp [DB.empty] at hx))
    "A" "B" "C" "pA" "pB" "pC" rfl
    (by decide) (by decide) (by decide) (by decide) (by decide) (by decide)
    (by decide) (by decide) (by decide)).1

/-! ### Claim C10 — `getBlogPosts` ignores its `limit` parameter -/

/-- C10: the `limit` argument of `getBlogPosts` is never applied; any two
limit values give identical result sets. -/
theorem getBlogPosts_ignores_limit (db : DB) (memberId : Option Int)
    (l1 l2 : Nat) :
    getBlogPosts db memberId l1 = getBlogPosts db memberId l2 := rfl

/-! ### Pagination collector (src/blogScraper.js) and date utilities
(src/utils dateUtils)

The DOM extraction of one listing page (container query, per-page URL
dedupe, next-page link detection) is abstracted as `fetch : Nat → PageResult`
giving, per page index, the stub list and the has-next flag returned by
`page.evaluate`.  JavaScript `new Date(s).getTime()` is the oracle
`jsDate : String → Option Int` (`none` for an invalid date);
`toDate.setHours(23, 59, 59, 999)` is the oracle `endOfDay`. -/

/-- A post stub from a listing page: `{url, date, title}`. -/
structure Stub where
  url : String
  date : String
  title : String
deriving DecidableEq, Repr

/-- Result of scanning one listing page. -/
structure PageResult where
  posts : List Stub
  hasNext : Bool
deriving DecidableEq, Repr

/-- JavaScript truthiness of an optional string (`if (dateFrom)`): both
`null` and `''` are falsy. -/
def optTruthy (v : Option String) : Bool :=
  match v with
  | none => false
  | some s => !(s == "")

/-- Separator normalisation of `parseBlogDate`:
`dateStr.replace(/[\.\/ ]/g, '-')`. -/
def normalizeSeps (s : String) : String :=
  String.mk (s.data.map (fun c => if c = '.' ∨ c = '/' ∨ c = ' ' then '-' else c))

/-- `parseBlogDate` (dateUtils): falsy input gives `null`; otherwise the
normalised string is parsed by `new Date`. -/
def parseBlogDate (jsDate : String → Option Int) (dateStr : String) : Option Int :=
  if dateStr = "" then none else jsDate (normalizeSeps dateStr)

/-- `isDateInRange` (dateUtils): a post with unparseable date is always in
range; each active bound is parsed by `new Date` (without normalisation), and
a JS comparison against an invalid bound is false, so an invalid bound never
excludes anything. -/
def isDateInRange (jsDate : String → Option Int) (endOfDay : Int → Int)
    (dateStr : String) (dateFrom dateTo : Option String) : Bool :=
  match parseBlogDate jsDate dateStr with
  | none => true
  | some d =>
    let fromViolated := optTruthy dateFrom &&
      (match jsDate (dateFrom.getD "") with
       | some f => decide (d < f)
       | none => false)
    let toViolated := optTruthy dateTo &&
      (match jsDate (dateTo.getD "") with
       | some t0 => decide (d > endOfDay t0)
       | none => false)
    !fromViolated && !toViolated

/-- The `dateFrom` early-termination test of `collectAllPostUrls`
(src/blogScraper.js lines 94–105): the page's last stub — the oldest one on a
descending feed — has a parseable date strictly before `new Date(dateFrom)`. -/
def oldestPredates (jsDate : String → Option Int) (fetch : Nat → PageResult)
    (df : String) (page : Nat) : Bool :=
  match (fetch page).posts.getLast? with
  | none => false
  | some s =>
    match parseBlogDate jsDate s.date, jsDate df with
    | some o, some f => decide (o < f)
    | _, _ => false

/-- The stop decision taken after a page's stubs have been accumulated
(src/blogScraper.js lines 93–112): with a truthy `dateFrom`, only the
oldest-predates test; otherwise the `limit` test against the accumulated
count (nothing when `limit` is `null`). -/
def collectStop (jsDate : String → Option Int) (fetch : Nat → PageResult)
    (limit : Option Nat) (dateFrom : Option String) (page : Nat)
    (acc2 : List Stub) : Bool :=
  if optTruthy dateFrom then oldestPredates jsDate fetch (dateFrom.getD "") page
  else
    match limit with
    | some l => decide (acc2.length ≥ l)
    | none => false

/-- Result of the collector: the accumulated stubs and the pages requested. -/
structure CollectResult where
  stubs : List Stub
  visited : List Nat
deriving DecidableEq, Repr

/-- `PAGINATION.MAX_PAGES_SCRAPING` (utils/constants). -/
def MAX_PAGES_SCRAPING : Nat := 100

/-- The page loop of `collectAllPostUrls` (src/blogScraper.js lines 25–120):
break on an empty page; filter the page's stubs by the date range and append;
stop on the `dateFrom`/`limit` decision or a missing next-page link; else
advance.  The `while currentPage < maxPages` bound is the fuel. -/
def collectLoop (jsDate : String → Option Int) (endOfDay : Int → Int)
    (fetch : Nat → PageResult) (limit : Option Nat)
    (dateFrom dateTo : Option String) :
    Nat → Nat → List Stub → List Nat → CollectResult
  | 0, _, acc, vis => ⟨acc, vis⟩
  | fuel + 1, page, acc, vis =>
    if (fetch page).posts.isEmpty then ⟨acc, vis ++ [page]⟩
    else if collectStop jsDate fetch limit dateFrom page
        (acc ++ (fetch page).posts.filter
          (fun s => isDateInRange jsDate endOfDay s.date dateFrom dateTo)) then
      ⟨acc ++ (fetch page).posts.filter
          (fun s => isDateInRange jsDate endOfDay s.date dateFrom dateTo),
        vis ++ [page]⟩
    else if !(fetch page).hasNext then
      ⟨acc ++ (fetch page).posts.filter
          (fun s => isDateInRange jsDate endOfDay s.date dateFrom dateTo),
        vis ++ [page]⟩
    else
      collectLoop jsDate endOfDay fetch limit dateFrom dateTo fuel (page + 1)
        (acc ++ (fetch page).posts.filter
          (fun s => isDateInRange jsDate endOfDay s.date dateFrom dateTo))
        (vis ++ [page])

/-- `collectAllPostUrls` (src/blogScraper.js lines 17–124). -/
def collectAllPostUrls (jsDate : String → Option Int) (endOfDay : Int → Int)
    (fetch : Nat → PageResult) (limit : Option Nat)
    (dateFrom dateTo : Option String) : CollectResult :=
  collectLoop jsDate endOfDay fetch limit dateFrom dateTo MAX_PAGES_SCRAPING 0 [] []

/-- The stub-selection step of `scrapeBlogPosts` (src/blogScraper.js lines
147–157): `limit = none` models the `'all'` sentinel; with a date range
active every collected stub is processed, otherwise the list is sliced to
`limit`. -/
def postsToProcess (jsDate : String → Option Int) (endOfDay : Int → Int)
    (fetch : Nat → PageResult) (limit : Option Nat)
    (dateFrom dateTo : Option String) : List Stub :=
  let allPosts := (collectAllPostUrls jsDate endOfDay fetch limit dateFrom dateTo).stubs
  let hasDateRange := optTruthy dateFrom || optTruthy dateTo
  if limit.isNone || hasDateRange then allPosts
  else allPosts.take (limit.getD 0)

/-! ### Claim C5 — `limit` under an active date range (refuted as stated) -/

theorem collectLoop_limit_independent (jsDate : String → Option Int)
    (endOfDay : Int → Int) (fetch : Nat → PageResult)
    (dateFrom dateTo : Option String) (h : optTruthy dateFrom = true)
    (L1 L2 : Option Nat) :
    ∀ (fuel page : Nat) (acc : List Stub) (vis : List Nat),
      collectLoop jsDate endOfDay fetch L1 dateFrom dateTo fuel page acc vis =
        collectLoop jsDate endOfDay fetch L2 dateFrom dateTo fuel page acc vis := by
  intro fuel
  induction fuel with
  | zero => intro page acc vis; rfl
  | succ n ih =>
    intro page acc vis
    have hstop : ∀ (page2 : Nat) (acc2 : List Stub),
        collectStop jsDate fetch L1 dateFrom page2 acc2 =
          collectStop jsDate fetch L2 dateFrom page2 acc2 := by
      intro page2 acc2
      unfold collectStop
      rw [h]
      simp
    simp only [collectLoop, hstop, ih]

/-- Pages 0 and 1 of a two-page feed (used in concrete collector scenarios). -/
def twoPageFetch : Nat → PageResult := fun n =>
  match n with
  | 0 => ⟨[⟨"u1", "x", "t1"⟩], true⟩
  | 1 => ⟨[⟨"u2", "x", "t2"⟩], false⟩
  | _ => ⟨[], false⟩

/-- A `new Date` oracle on which every string is an invalid date. -/
def noneJsDate : String → Option Int := fun _ => none

/-- C5 counterexample: with only `dateTo` active (a date range in the
claim's sense), the collector's page loop still applies `limit`, so limits 1
and 5 process different stub sets on a two-page feed. -/
theorem limit_ignored_with_date_range_cex :
    postsToProcess noneJsDate id twoPageFetch (some 1) none (some "2030-01-01") ≠
      postsToProcess noneJsDate id twoPageFetch (some 5) none (some "2030-01-01") := by
  decide

/-- C5 amended: when `dateFrom` is truthy the `limit` argument is fully
ignored — both the collected stub list (with its visited pages) and the
processed stub list agree for any two limits.  With only `dateTo` set, the
collection loop still stops on `limit` (see the counterexample). -/
theorem limit_ignored_when_dateFrom (jsDate : String → Option Int)
    (endOfDay : Int → Int) (fetch : Nat → PageResult)
    (dateFrom dateTo : Option String) (h : optTruthy dateFrom = true)
    (L1 L2 : Option Nat) :
    collectAllPostUrls jsDate endOfDay fetch L1 dateFrom dateTo =
        collectAllPostUrls jsDate endOfDay fetch L2 dateFrom dateTo ∧
      postsToProcess jsDate endOfDay fetch L1 dateFrom dateTo =
        postsToProcess jsDate endOfDay fetch L2 dateFrom dateTo := by
  have hc : collectAllPostUrls jsDate endOfDay fetch L1 dateFrom dateTo =
      collectAllPostUrls jsDate endOfDay fetch L2 dateFrom dateTo :=
    collectLoop_limit_independent jsDate endOfDay fetch dateFrom dateTo h L1 L2
      MAX_PAGES_SCRAPING 0 [] []
  refine ⟨hc, ?_⟩
  unfold postsToProcess
  rw [hc, h]
  simp

/-- Witness for the amended C5 at a concrete input. -/
theorem limit_ignored_when_dateFrom_witness :
    collectAllPostUrls noneJsDate id twoPageFetch (some 1) (some "2020-01-01") none =
        collectAllPostUrls noneJsDate id twoPageFetch (some 5) (some "2020-01-01") none ∧
      postsToProcess noneJsDate id twoPageFetch (some 1) (some "2020-01-01") none =
        postsToProcess noneJsDate id twoPageFetch (some 5) (some "2020-01-01") none :=
  limit_ignored_when_dateFrom noneJsDate id twoPageFetch (some "2020-01-01") none
    (by decide) (some 1) (some 5)

/-! ### Claim C6 — date-range early termination -/

theorem isDateInRange_from_bound (jsDate : String → Option Int)
    (endOfDay : Int → Int) (ds : String) (dateTo : Option String) (df : String)
    (hdf : df ≠ "")
    (h : isDateInRange jsDate endOfDay ds (some df) dateTo = true)
    (d f : Int) (hd : parseBlogDate jsDate ds = some d) (hf : jsDate df = some f) :
    ¬ d < f := by
  intro hlt
  unfold isDateInRange at h
  rw [hd] at h
  simp [optTruthy, hdf, Option.getD, hf, hlt] at h

theorem collectLoop_acc_mem (jsDate : String → Option Int)
    (endOfDay : Int → Int) (fetch : Nat → PageResult) (limit : Option Nat)
    (dateFrom dateTo : Option String) :
    ∀ (fuel page : Nat) (acc : List Stub) (vis : List Nat) (x : Stub),
      x ∈ acc →
      x ∈ (collectLoop jsDate endOfDay fetch limit dateFrom dateTo
        fuel page acc vis).stubs := by
  intro fuel
  induction fuel with
  | zero => intro page acc vis x hx; exact hx
  | succ n ih =>
    intro page acc vis x hx
    simp only [collectLoop]
    split
    · exact hx
    · split
      · exact List.mem_append_left _ hx
      · split
        · exact List.mem_append_left _ hx
        · exact ih (page + 1) _ _ x (List.mem_append_left _ hx)

theorem collectLoop_stubs_from_bound (jsDate : String → Option Int)
    (endOfDay : Int → Int) (fetch : Nat → PageResult) (limit : Option Nat)
    (dateTo : Option String) (df : String) (hdf : df ≠ "") :
    ∀ (fuel page : Nat) (acc : List Stub) (vis : List Nat),
      (∀ s ∈ acc, ∀ d f : Int, parseBlogDate jsDate s.date = some d →
        jsDate df = some f → ¬ d < f) →
      ∀ s ∈ (collectLoop jsDate endOfDay fetch limit (some df) dateTo
          fuel page acc vis).stubs,
        ∀ d f : Int, parseBlogDate jsDate s.date = some d →
          jsDate df = some f → ¬ d < f := by
  intro fuel
  induction fuel with
  | zero => intro page acc vis hacc s hs; exact hacc s hs
  | succ n ih =>
    intro page acc vis hacc
    have hacc2 : ∀ s ∈ acc ++ (fetch page).posts.filter
        (fun s => isDateInRange jsDate endOfDay s.date (some df) dateTo),
        ∀ d f : Int, parseBlogDate jsDate s.date = some d →
          jsDate df = some f → ¬ d < f := by
      intro s hs d f hd hf
      rcases List.mem_append.mp hs with h1 | h2
      · exact hacc s h1 d f hd hf
      · exact isDateInRange_from_bound jsDate endOfDay s.date dateTo df hdf
          (List.mem_filter.mp h2).2 d f hd hf
    simp only [collectLoop]
    split
    · exact hacc
    · split
      · exact hacc2
      · split
        · exact hacc2
        · exact ih (page + 1) _ _ hacc2

theorem collectLoop_visited_consec (jsDate : String → Option Int)
    (endOfDay : Int → Int) (fetch : Nat → PageResult) (limit : Option Nat)
    (dateTo : Option String) (df : String) (hdf : df ≠ "") :
    ∀ (fuel page : Nat) (acc : List Stub) (vis : List Nat),
      ∀ j ∈ (collectLoop jsDate endOfDay fetch limit (some df) dateTo
          fuel page acc vis).visited,
        j ∈ vis ∨ (page ≤ j ∧ ∀ i, page ≤ i → i < j →
          oldestPredates jsDate fetch df i = false) := by
  intro fuel
  induction fuel with
  | zero => intro page acc vis j hj; exact Or.inl hj
  | succ n ih =>
    intro page acc vis j hj
    have hbase : j ∈ vis ++ [page] →
        j ∈ vis ∨ (page ≤ j ∧ ∀ i, page ≤ i → i < j →
          oldestPredates jsDate fetch df i = false) := by
      intro hm
      rcases List.mem_append.mp hm with h1 | h2
      · exact Or.inl h1
      · have hjp : j = page := List.mem_singleton.mp h2
        subst hjp
        exact Or.inr ⟨Nat.le_refl _, fun i h1 h2 => absurd h2 (by omega)⟩
    by_cases hempty : (fetch page).posts.isEmpty = true
    · rw [collectLoop, if_pos hempty] at hj
      exact hbase hj
    · rw [collectLoop, if_neg hempty] at hj
      by_cases hstop : collectStop jsDate fetch limit (some df) page
          (acc ++ (fetch page).posts.filter
            (fun s => isDateInRange jsDate endOfDay s.date (some df) dateTo)) = true
      · rw [if_pos hstop] at hj
        exact hbase hj
      · rw [if_neg hstop] at hj
        by_cases hnext : (!(fetch page).hasNext) = true
        · rw [if_pos hnext] at hj
          exact hbase hj
        · rw [if_neg hnext] at hj
          have hop : oldestPredates jsDate fetch df page = false := by
            have heq : collectStop jsDate fetch limit (some df) page
                (acc ++ (fetch page).posts.filter
                  (fun s => isDateInRange jsDate endOfDay s.date (some df) dateTo)) =
                oldestPredates jsDate fetch df page := by
              unfold collectStop
              have : optTruthy (some df) = true := by simp [optTruthy, hdf]
              rw [this]
              rfl
            rw [heq] at hstop
            exact Bool.not_eq_true _ ▸ Bool.of_not_eq_true hstop
          rcases ih (page + 1) _ _ j hj with h1 | ⟨hle, hall⟩
          · exact hbase h1
          · refine Or.inr ⟨by omega, ?_⟩
            intro i hpi hij
            rcases Nat.eq_or_lt_of_le hpi with h2 | h2
            · rw [← h2]
              exact hop
            · exact hall i (by omega) hij

theorem collectLoop_unparseable_kept (jsDate : String → Option Int)
    (endOfDay : Int → Int) (fetch : Nat → PageResult) (limit : Option Nat)
    (dateFrom dateTo : Option String) :
    ∀ (fuel page : Nat) (acc : List Stub) (vis : List Nat),
      ∀ j ∈ (collectLoop jsDate endOfDay fetch limit dateFrom dateTo
          fuel page acc vis).visited,
        j ∉ vis →
        ∀ s ∈ (fetch j).posts,
          isDateInRange jsDate endOfDay s.date dateFrom dateTo = true →
          s ∈ (collectLoop jsDate endOfDay fetch limit dateFrom dateTo
            fuel page acc vis).stubs := by
  intro fuel
  induction fuel with
  | zero =>
    intro page acc vis j hj hnv s _ _
    exact absurd hj hnv
  | succ n ih =>
    intro page acc vis j hj hnv s hs hrange
    by_cases hempty : (fetch page).posts.isEmpty = true
    · rw [collectLoop, if_pos hempty] at hj ⊢
      have hjp : j = page := by
        rcases List.mem_append.mp hj with h1 | h2
        · exact absurd h1 hnv
        · exact List.mem_singleton.mp h2
      subst hjp
      rw [List.isEmpty_iff.mp hempty] at hs
      exact absurd hs (List.not_mem_nil s)
    · rw [collectLoop, if_neg hempty] at hj ⊢
      by_cases hstop : collectStop jsDate fetch limit dateFrom page
          (acc ++ (fetch page).posts.filter
            (fun t => isDateInRange jsDate endOfDay t.date dateFrom dateTo)) = true
      · rw [if_pos hstop] at hj ⊢
        have hjp : j = page := by
          rcases List.mem_append.mp hj with h1 | h2
          · exact absurd h1 hnv
          · exact List.mem_singleton.mp h2
        subst hjp
        exact List.mem_append_right _ (List.mem_filter.mpr ⟨hs, hrange⟩)
      · rw [if_neg hstop] at hj ⊢
        by_cases hnext : (!(fetch page).hasNext) = true
        · rw [if_pos hnext] at hj ⊢
          have hjp : j = page := by
            rcases List.mem_append.mp hj with h1 | h2
            · exact absurd h1 hnv
            · exact List.mem_singleton.mp h2
          subst hjp
          exact List.mem_append_right _ (List.mem_filter.mpr ⟨hs, hrange⟩)
        · rw [if_neg hnext] at hj ⊢
          by_cases hjp : j = page
          · subst hjp
            exact collectLoop_acc_mem jsDate endOfDay fetch limit dateFrom dateTo
              n (j + 1) _ _ s
              (List.mem_append_right _ (List.mem_filter.mpr ⟨hs, hrange⟩))
          · have hnv2 : j ∉ vis ++ [page] := by
              intro hm
              rcases List.mem_append.mp hm with h1 | h2
              · exact hnv h1
              · exact hjp (List.mem_singleton.mp h2)
            exact ih (page + 1) _ _ j hj hnv2 s hs hrange

/-- C6: with a non-empty `dateFrom`, (a) the collector requests no page after
the first one whose oldest (last) stub has a parseable date before
`dateFrom`; (b) no returned stub has a parseable date before `dateFrom`; and
(c) every stub with an unparseable date on a visited page is kept.  Proved
for every feed, in particular for descending-by-date ones. -/
theorem collect_date_cutoff (jsDate : String → Option Int)
    (endOfDay : Int → Int) (fetch : Nat → PageResult) (limit : Option Nat)
    (dateTo : Option String) (df : String) (hdf : df ≠ "") :
    (∀ j ∈ (collectAllPostUrls jsDate endOfDay fetch limit (some df) dateTo).visited,
       ∀ i, i < j → oldestPredates jsDate fetch df i = false) ∧
    (∀ s ∈ (collectAllPostUrls jsDate endOfDay fetch limit (some df) dateTo).stubs,
       ∀ d f : Int, parseBlogDate jsDate s.date = some d → jsDate df = some f →
         ¬ d < f) ∧
    (∀ j ∈ (collectAllPostUrls jsDate endOfDay fetch limit (some df) dateTo).visited,
       ∀ s ∈ (fetch j).posts, parseBlogDate jsDate s.date = none →
         s ∈ (collectAllPostUrls jsDate endOfDay fetch limit (some df) dateTo).stubs) := by
  refine ⟨?_, ?_, ?_⟩
  · intro j hj i hij
    rcases collectLoop_visited_consec jsDate endOfDay fetch limit dateTo df hdf
        MAX_PAGES_SCRAPING 0 [] [] j hj with h1 | ⟨_, hall⟩
    · exact absurd h1 (List.not_mem_nil j)
    · exact hall i (Nat.zero_le i) hij
  · intro s hs
    exact collectLoop_stubs_from_bound jsDate endOfDay fetch limit dateTo df hdf
      MAX_PAGES_SCRAPING 0 [] []
      (fun t ht => absurd ht (List.not_mem_nil t)) s hs
  · intro j hj s hs hpn
    refine collectLoop_unparseable_kept jsDate endOfDay fetch limit (some df) dateTo
      MAX_PAGES_SCRAPING 0 [] [] j hj (List.not_mem_nil j) s hs ?_
    unfold isDateInRange
    rw [hpn]

/-- A two-page descending feed with timestamps 3 and 1, and a cutoff string
`"DF"` parsing to 2. -/
def cutoffFetch : Nat → PageResult := fun n =>
  match n with
  | 0 => ⟨[⟨"u3", "D3", "t"⟩], true⟩
  | 1 => ⟨[⟨"u1", "D1", "t"⟩], true⟩
  | _ => ⟨[], false⟩

/-- The `new Date` oracle for the cutoff scenario. -/
def cutoffJsDate : String → Option Int := fun s =>
  if s = "D3" then some 3
  else if s = "D1" then some 1
  else if s = "DF" then some 2
  else none

/-- Witness for C6 at a concrete input. -/
theorem collect_date_cutoff_witness :
    oldestPredates cutoffJsDate cutoffFetch "DF" 0 = false ∧ ¬ (3 : Int) < 2 :=
  ⟨(collect_date_cutoff cutoffJsDate id cutoffFetch none none "DF"
      (by decide)).1 1 (by decide) 0 (by decide),
   (collect_date_cutoff cutoffJsDate id cutoffFetch none none "DF"
      (by decide)).2.1 ⟨"u3", "D3", "t"⟩ (by decide) 3 2 (by decide) (by decide)⟩

/-! ### Image downloader (src/imageDownloader.js)

The attempt loop of `downloadImageOptimized` (lines 113–237) is modelled over
an oracle `ev : Nat → NetEvent` giving the network event observed by the
n-th attempt (1-based).  The model returns the outcome, the number of
attempts made, and whether a file is left at the destination path: every
failure handler closes the stream and unlinks the partial file before
retrying or rejecting, and a 301/302 unlinks before recursing into the
redirect target. -/

/-- The network event observed by one download attempt: an HTTP response
(with the `location` header, read only for 301/302), a timeout, a transport
error carrying `err.code`, or a write-stream error. -/
inductive NetEvent where
  | response (statusCode : Nat) (location : String)
  | timeout
  | netError (code : String)
  | fileError
deriving DecidableEq, Repr

/-- How the attempt loop ends: success, recursion into a redirect target, or
rejection with an error message. -/
inductive AttemptOutcome where
  | ok
  | followRedirect (location : String)
  | failed (msg : String)
deriving DecidableEq, Repr

/-- The retrying attempt loop (src/imageDownloader.js lines 116–236):
`attempts` is incremented on entry; a 301/302 response hands the location to
a recursive `downloadImageOptimized` call; a non-200 status, a timeout, or a
transport error other than `ENOTFOUND` retries while `attempts < retryCount`
and rejects otherwise; `ENOTFOUND` and stream errors reject at once.  The
returned triple is (outcome, attempts made, file left at the final path). -/
def attemptLoop (ev : Nat → NetEvent) (retryCount : Nat) (attempts : Nat) :
    AttemptOutcome × Nat × Bool :=
  let a := attempts + 1
  match ev a with
  | .response c loc =>
    if c = 301 ∨ c = 302 then (.followRedirect loc, a, false)
    else if c = 200 then (.ok, a, true)
    else if _h : a < retryCount then attemptLoop ev retryCount a
    else (.failed ("ダウンロード失敗: ステータス " ++ toString c), a, false)
  | .timeout =>
    if _h : a < retryCount then attemptLoop ev retryCount a
    else (.failed "ダウンロードタイムアウト", a, false)
  | .netError code =>
    if _h : a < retryCount ∧ code ≠ "ENOTFOUND" then attemptLoop ev retryCount a
    else (.failed code, a, false)
  | .fileError => (.failed "file stream error", a, false)
termination_by retryCount - attempts
decreasing_by all_goals omega

/-- One run of the attempt loop of `downloadImageOptimized`, starting with
`attempts = 0`. -/
def runDownloadAttempts (ev : Nat → NetEvent) (retryCount : Nat) :
    AttemptOutcome × Nat × Bool :=
  attemptLoop ev retryCount 0

/-- JS `memberName.replace(/[<>:"/\\|?*]/g, '')` (line 121). -/
def sanitizeMemberName (name : String) : String :=
  String.mk (name.data.filter (fun c =>
    ¬ (c = '<' ∨ c = '>' ∨ c = ':' ∨ c = '"' ∨ c = '/' ∨ c = '\\' ∨
       c = '|' ∨ c = '?' ∨ c = '*')))

/-- The destination folder `${sanitizedName}_${site}` (lines 121–122), with
the JS-falsy member-name fallback `member_${memberId}`. -/
def downloadFolderName (memberName : Option String) (memberId : String)
    (site : String) : String :=
  (match memberName with
   | some n => if n = "" then "member_" ++ memberId else sanitizeMemberName n
   | none => "member_" ++ memberId) ++ "_" ++ site

/-- The argument tuple of `downloadImageOptimized(imageUrl, memberId, postId,
memberName, site, retryCount)`.  The dynamically typed `site` slot is
modelled by its string coercion (its only computational use is the
`${...}_${site}` template). -/
structure DownloadArgs where
  imageUrl : String
  memberId : String
  postId : String
  memberName : Option String
  site : String
  retryCount : Nat
deriving DecidableEq, Repr

/-- The recursive call on a 301/302 redirect (line 158):
`downloadImageOptimized(response.headers.location, memberId, postId,
memberName, retryCount)` — only five arguments, so the caller's `retryCount`
lands in the `site` parameter slot (stringified here, as the template
literal would) and `retryCount` falls back to its default 3. -/
def redirectCall (args : DownloadArgs) (location : String) : DownloadArgs :=
  { imageUrl := location, memberId := args.memberId, postId := args.postId,
    memberName := args.memberName, site := toString args.retryCount,
    retryCount := 3 }

/-! ### Batched download of an image list -/

/-- The per-item result `{url, localPath, success, error?}` of
`downloadImagesOptimized`. -/
structure DownloadItemResult where
  url : String
  localPath : Option String
  success : Bool
  error : Option String
deriving DecidableEq, Repr

/-- The body of `batch.map` (src/imageDownloader.js lines 265–282): a
successful `downloadImageOptimized` yields `{url, localPath, success: true}`,
a rejection yields `{url, localPath: null, success: false, error}`.  The
per-url outcome is the oracle `dl`. -/
def downloadItem (dl : String → Except String String) (u : String) :
    DownloadItemResult :=
  match dl u with
  | .ok p => ⟨u, some p, true, none⟩
  | .error e => ⟨u, none, false, some e⟩

/-- The window loop of `downloadImagesOptimized` (lines 263–289):
`for (i = 0; i < total; i += maxConcurrent)` processing
`urls.slice(i, min(i + maxConcurrent, total))` per window; `Promise.all`
keeps the window's array order.  The loop count is bounded by `total`
iterations (fuel), which suffices whenever `maxConcurrent ≥ 1`. -/
def downloadBatchesLoop (dl : String → Except String String)
    (imageUrls : List String) (maxConcurrent : Nat) :
    Nat → Nat → List DownloadItemResult
  | 0, _ => []
  | fuel + 1, i =>
    if i < imageUrls.length then
      ((imageUrls.drop i).take maxConcurrent).map (downloadItem dl) ++
        downloadBatchesLoop dl imageUrls maxConcurrent fuel (i + maxConcurrent)
    else []

/-- `downloadImagesOptimized` (src/imageDownloader.js lines 256–295). -/
def downloadImagesOptimized (dl : String → Except String String)
    (imageUrls : List String) (maxConcurrent : Nat) : List DownloadItemResult :=
  downloadBatchesLoop dl imageUrls maxConcurrent imageUrls.length 0

/-! ### Claim C7 — retry exhaustion and non-retryable resolution errors -/

theorem attemptLoop_all_non2xx (ev : Nat → NetEvent) (retryCount : Nat)
    (hresp : ∀ a, 1 ≤ a → a ≤ retryCount → ∃ c loc,
      ev a = NetEvent.response c loc ∧ ¬ (200 ≤ c ∧ c < 300) ∧
      c ≠ 301 ∧ c ≠ 302) :
    ∀ n attempts, retryCount - attempts = n → attempts < retryCount →
      ∃ msg, attemptLoop ev retryCount attempts =
        (AttemptOutcome.failed msg, retryCount, false) := by
  intro n
  induction n with
  | zero => intro attempts h1 h2; omega
  | succ m ih =>
    intro attempts h1 h2
    obtain ⟨c, loc, hev, h2xx, h301, h302⟩ :=
      hresp (attempts + 1) (by omega) (by omega)
    unfold attemptLoop
    simp only [hev]
    rw [if_neg (by omega : ¬ (c = 301 ∨ c = 302))]
    rw [if_neg (by omega : ¬ c = 200)]
    by_cases hlt : attempts + 1 < retryCount
    · rw [dif_pos hlt]
      exact ih (attempts + 1) (by omega) hlt
    · rw [dif_neg hlt]
      have ha : attempts + 1 = retryCount := by omega
      rw [ha]
      exact ⟨_, rfl⟩

/-- C7: when every attempt sees a non-2xx, non-redirect response, the loop
fails after exactly `retryCount` attempts with no file left at the final
path; a transport error with code `ENOTFOUND` fails on the very first
attempt without consuming the remaining retry budget. -/
theorem download_retry_exhaustion (ev : Nat → NetEvent) (retryCount : Nat)
    (hrc : 1 ≤ retryCount) :
    ((∀ a, 1 ≤ a → a ≤ retryCount → ∃ c loc,
        ev a = NetEvent.response c loc ∧ ¬ (200 ≤ c ∧ c < 300) ∧
        c ≠ 301 ∧ c ≠ 302) →
      ∃ msg, runDownloadAttempts ev retryCount =
        (AttemptOutcome.failed msg, retryCount, false)) ∧
    (ev 1 = NetEvent.netError "ENOTFOUND" →
      runDownloadAttempts ev retryCount =
        (AttemptOutcome.failed "ENOTFOUND", 1, false)) := by
  constructor
  · intro hresp
    exact attemptLoop_all_non2xx ev retryCount hresp retryCount 0 (by omega)
      (by omega)
  · intro hev
    unfold runDownloadAttempts attemptLoop
    simp only [hev]
    simp

/-- A download whose every attempt is answered with HTTP 500. -/
def ev500 : Nat → NetEvent := fun _ => NetEvent.response 500 ""

/-- A download whose host never resolves. -/
def evENF : Nat → NetEvent := fun _ => NetEvent.netError "ENOTFOUND"

/-- Witness for C7 at concrete inputs. -/
theorem download_retry_exhaustion_witness :
    (∃ msg, runDownloadAttempts ev500 3 = (AttemptOutcome.failed msg, 3, false)) ∧
      runDownloadAttempts evENF 3 = (AttemptOutcome.failed "ENOTFOUND", 1, false) :=
  ⟨(download_retry_exhaustion ev500 3 (by omega)).1
      (fun _ _ _ => ⟨500, "", rfl, by omega, by omega, by omega⟩),
   (download_retry_exhaustion evENF 3 (by omega)).2 rfl⟩

/-! ### Claim C8 — batch results preserve input order -/

theorem downloadBatchesLoop_eq_map (dl : String → Except String String)
    (imageUrls : List String) (mc : Nat) (h : 1 ≤ mc) :
    ∀ fuel i, imageUrls.length - i ≤ fuel →
      downloadBatchesLoop dl imageUrls mc fuel i =
        (imageUrls.drop i).map (downloadItem dl) := by
  intro fuel
  induction fuel with
  | zero =>
    intro i hi
    rw [List.drop_eq_nil_of_le (by omega)]
    rfl
  | succ m ih =>
    intro i hi
    show (if i < imageUrls.length then _ else []) = _
    by_cases hlt : i < imageUrls.length
    · rw [if_pos hlt, ih (i + mc) (by omega), ← List.map_append]
      congr 1
      have hdd : imageUrls.drop (i + mc) = (imageUrls.drop i).drop mc := by
        rw [List.drop_drop]
      rw [hdd]
      exact List.take_append_drop mc (imageUrls.drop i)
    · rw [if_neg hlt, List.drop_eq_nil_of_le (by omega)]
      rfl

/-- C8: the batched downloader returns one result per input url, in input
order — the i-th result carries the i-th url — and a failed item yields
`{url, localPath: null, success: false, error}` at its own position only
(each position is determined by its own url's outcome alone). -/
theorem download_results_order_preserved (dl : String → Except String String)
    (imageUrls : List String) (mc : Nat) (h : 1 ≤ mc) :
    (downloadImagesOptimized dl imageUrls mc).length = imageUrls.length ∧
    ∀ i u, imageUrls.get? i = some u →
      (downloadImagesOptimized dl imageUrls mc).get? i =
          some (downloadItem dl u) ∧
        (downloadItem dl u).url = u ∧
        ∀ e, dl u = Except.error e →
          (downloadImagesOptimized dl imageUrls mc).get? i =
            some ⟨u, none, false, some e⟩ := by
  have hm : downloadImagesOptimized dl imageUrls mc =
      imageUrls.map (downloadItem dl) := by
    have h0 := downloadBatchesLoop_eq_map dl imageUrls mc h imageUrls.length 0
      (by omega)
    rw [List.drop_zero] at h0
    exact h0
  constructor
  · rw [hm, List.length_map]
  · intro i u hu
    have hg : (imageUrls.map (downloadItem dl)).get? i =
        some (downloadItem dl u) := by
      rw [List.get?_map, hu]
      rfl
    refine ⟨by rw [hm]; exact hg, ?_, ?_⟩
    · unfold downloadItem
      cases dl u <;> rfl
    · intro e he
      rw [hm, hg]
      unfold downloadItem
      rw [he]

/-- A per-url outcome with one failing url. -/
def dlOneBad : String → Except String String := fun u =>
  if u = "bad" then Except.error "HTTP 500" else Except.ok ("img/" ++ u)

/-- Witness for C8 at a concrete input. -/
theorem download_results_order_preserved_witness :
    (downloadImagesOptimized dlOneBad ["a", "bad", "c"] 2).length = 3 ∧
      (downloadImagesOptimized dlOneBad ["a", "bad", "c"] 2).get? 1 =
        some ⟨"bad", none, false, some "HTTP 500"⟩ :=
  ⟨(download_results_order_preserved dlOneBad ["a", "bad", "c"] 2 (by omega)).1,
   ((download_results_order_preserved dlOneBad ["a", "bad", "c"] 2
      (by omega)).2 1 "bad" rfl).2.2 "HTTP 500" rfl⟩

/-! ### Claim C9 — the redirect recursion drops the `site` argument -/

/-- C9: a first response of 301/302 makes the attempt loop hand the location
to a recursive call, and that call site binds the caller's `retryCount` to
the `site` parameter slot (dropping the `site` argument) with `retryCount`
reset to its default 3 — so with the default `retryCount = 3` and any site
other than the string `"3"`, the redirected image's destination folder is
`<sanitizedMemberName>_3`, not `<sanitizedMemberName>_<site>`. -/
theorem redirect_binds_retry_to_site (args : DownloadArgs) (location : String)
    (n : String) (hname : args.memberName = some n) (hn : n ≠ "")
    (hrc : args.retryCount = 3) (hsite : args.site ≠ "3") :
    (∀ (ev : Nat → NetEvent) (c : Nat) (loc : String),
      (c = 301 ∨ c = 302) → ev 1 = NetEvent.response c loc →
      runDownloadAttempts ev args.retryCount =
        (AttemptOutcome.followRedirect loc, 1, false)) ∧
    (redirectCall args location).site = toString args.retryCount ∧
    (redirectCall args location).retryCount = 3 ∧
    downloadFolderName (redirectCall args location).memberName args.memberId
        (redirectCall args location).site = sanitizeMemberName n ++ "_3" ∧
    downloadFolderName (redirectCall args location).memberName args.memberId
        (redirectCall args location).site ≠
      downloadFolderName args.memberName args.memberId args.site := by
  have hfold : downloadFolderName (redirectCall args location).memberName
      args.memberId (redirectCall args location).site =
      sanitizeMemberName n ++ "_3" := by
    show downloadFolderName args.memberName args.memberId
      (toString args.retryCount) = _
    rw [hname, hrc]
    show (if n = "" then "member_" ++ args.memberId else sanitizeMemberName n)
      ++ "_" ++ toString (3 : Nat) = _
    rw [if_neg hn, String.append_assoc]
    rfl
  refine ⟨?_, rfl, rfl, hfold, ?_⟩
  · intro ev c loc hc hev
    unfold runDownloadAttempts attemptLoop
    simp only [hev]
    rw [if_pos hc]
  · rw [hfold, hname]
    show ¬ sanitizeMemberName n ++ "_3" =
      (if n = "" then "member_" ++ args.memberId else sanitizeMemberName n)
        ++ "_" ++ args.site
    rw [if_neg hn]
    intro hcontra
    have hdata := congrArg String.data hcontra
    simp only [String.data_append, List.append_assoc] at hdata
    have h2 := List.append_cancel_left hdata
    have h3 : args.site.data = ['3'] := by
      have h4 : ('_' :: ['3'] : List Char) = '_' :: args.site.data := h2
      exact (List.cons_eq_cons.mp h4).2.symm
    apply hsite
    rw [← mkData args.site, h3]

/-- Witness for C9 at a concrete input. -/
theorem redirect_binds_retry_to_site_witness :
    (redirectCall ⟨"http://img/x.jpg", "47", "p1", some "森田ひかる",
        "sakurazaka46", 3⟩ "http://img/y.jpg").site = "3" ∧
      downloadFolderName (some "森田ひかる") "47" "3" = "森田ひかる_3" :=
  ⟨((redirect_binds_retry_to_site
      ⟨"http://img/x.jpg", "47", "p1", some "森田ひかる", "sakurazaka46", 3⟩
      "http://img/y.jpg" "森田ひかる" rfl (by decide) rfl (by decide)).2.1),
   ((redirect_binds_retry_to_site
      ⟨"http://img/x.jpg", "47", "p1", some "森田ひかる", "sakurazaka46", 3⟩
      "http://img/y.jpg" "森田ひかる" rfl (by decide) rfl (by decide)).2.2.2.1)⟩

end BlogArchive
